import Mathlib

/-!
# The experiment monitor of the point-cloud loop functions

A shallow embedding of `loop_functions/point_cloud_loop_functions.cpp`
(`CPointCloudLoopFunctions`): `Init`, `PreStep`, `PostStep` and
`IsExperimentFinished`, with the two `std::map`s, the per-robot controllers the
monitor reads and resets, and the two output streams as lists of written lines.

Conventions of the embedding:

* a `std::map<SLocation, std::string>` is an association list whose keys are
  pairwise distinct (`CategoryMap.WF`); `operator[]` for reading inserts the
  default (empty) string under an absent key, as the C++ container does;
* unsigned accumulators are naturals reduced modulo `2 ^ w` after every addition;
* coordinates, radii and time stamps are exact numbers (integers): the monitor
  only compares locations for equality, copies radii and subtracts time stamps;
* the load printed by `PostStep` is an exact rational, `none` standing for the
  non-finite result of a division by zero;
* `vecTimingInfo[i]` is `Option`-valued indexing: an event whose index has no
  timing record yields a line with an undefined (`none`) elapsed time.
-/

namespace PointCloud

/-! ## Data carried by the controllers -/

/-- SLocation as used for the keys of both maps: the three coordinates of an object. -/
structure SLocation where
  X : Int
  Y : Int
  Z : Int
deriving DecidableEq, Repr

/-- Payload of a voting decision: `Payload.Category` and `Payload.Radius`. -/
structure SPayload where
  Category : String
  Radius : Int
deriving DecidableEq, Repr

/-- SEventData as read by `PostStep`: `Location` and `Payload`. -/
structure SEventData where
  Location : SLocation
  Payload : SPayload
deriving DecidableEq, Repr

/-- STimingInfo of `CCollectivePerception`: `Start` and `LastUpdate`. -/
structure STimingInfo where
  Start : Int
  LastUpdate : Int
deriving DecidableEq, Repr

/-- Key of a stored tuple: `Key.Identifier` and `Key.Hash`. -/
structure SKey where
  Identifier : Nat
  Hash : Nat
deriving DecidableEq, Repr

/-- STuple as written to the histogram stream. -/
structure STuple where
  Key : SKey
deriving DecidableEq, Repr

/-- Modelled from the spec: the controller class `CCollectivePerception` is not among
the sources (only its use by the loop functions is). It is a record of the values the
monitor reads (spec section 3, AgentState, and section 6, agent controller inputs):
message count, stored-tuple count, bytes-sent counter, the two capacities, the
voting-decision events, the timing records, the stored tuples, the agent identifier and
the node id. -/
structure CCollectivePerception where
  Id : String
  NodeID : Nat
  MessageCount : Nat
  NumStoredTuples : Nat
  BytesSent : Nat
  RoutingCapacity : Nat
  StorageCapacity : Nat
  VotingDecisions : List SEventData
  TimingInfo : List STimingInfo
  Tuples : List STuple
deriving DecidableEq, Repr

namespace CCollectivePerception

/-- Modelled from the spec: `GetMessageCount` reads the message count. -/
def GetMessageCount (c : CCollectivePerception) : Nat := c.MessageCount

/-- Modelled from the spec: `GetNumStoredTuples` reads the stored-tuple count. -/
def GetNumStoredTuples (c : CCollectivePerception) : Nat := c.NumStoredTuples

/-- Modelled from the spec: `GetBytesSent` reads the bytes-sent counter. -/
def GetBytesSent (c : CCollectivePerception) : Nat := c.BytesSent

/-- Modelled from the spec: `GetRoutingCapacity` reads the static routing capacity. -/
def GetRoutingCapacity (c : CCollectivePerception) : Nat := c.RoutingCapacity

/-- Modelled from the spec: `GetStorageCapacity` reads the static storage capacity. -/
def GetStorageCapacity (c : CCollectivePerception) : Nat := c.StorageCapacity

/-- Modelled from the spec: `GetVotingDecisions` gives the buffer of voting decisions. -/
def GetVotingDecisions (c : CCollectivePerception) : List SEventData := c.VotingDecisions

/-- Modelled from the spec: `GetTimingInfo` gives the timing records. -/
def GetTimingInfo (c : CCollectivePerception) : List STimingInfo := c.TimingInfo

/-- Modelled from the spec: `GetTuples` gives a copy of the stored tuples. -/
def GetTuples (c : CCollectivePerception) : List STuple := c.Tuples

/-- Modelled from the spec: `GetId` gives the stable agent identifier. -/
def GetId (c : CCollectivePerception) : String := c.Id

/-- Modelled from the spec: `GetNodeID` gives the node id. -/
def GetNodeID (c : CCollectivePerception) : Nat := c.NodeID

/-- Modelled from the spec: `ResetBytesSent` zeroes the bytes-sent counter. -/
def ResetBytesSent (c : CCollectivePerception) : CCollectivePerception :=
  { c with BytesSent := 0 }

/-- Modelled from the spec: `SetMessageCount` stores the message count. -/
def SetMessageCount (c : CCollectivePerception) (n : Nat) : CCollectivePerception :=
  { c with MessageCount := n }

/-- Modelled from the spec: `SetNumStoredTuples` stores the stored-tuple count. -/
def SetNumStoredTuples (c : CCollectivePerception) (n : Nat) : CCollectivePerception :=
  { c with NumStoredTuples := n }

/-- Modelled from the spec: `ClearTimingInfo` empties the timing records (the call on
line 171, next to the commented-out `ClearVotingDecisions`). -/
def ClearTimingInfo (c : CCollectivePerception) : CCollectivePerception :=
  { c with TimingInfo := [] }

end CCollectivePerception

/-! ## The two maps -/

/-- The type of `m_mapActualCategories` and `m_mapVotedCategories`. -/
abbrev CategoryMap := List (SLocation × String)

namespace CategoryMap

/-- Keys of the map, in storage order. -/
def keys (m : CategoryMap) : List SLocation := m.map Prod.fst

/-- Well-formedness of a `std::map`: no key occurs twice. -/
def WF (m : CategoryMap) : Prop := (keys m).Nodup

/-- The `size()` of the map. -/
def size (m : CategoryMap) : Nat := m.length

/-- The `find` of the map. -/
def find? : CategoryMap → SLocation → Option String
  | [], _ => none
  | (k', v) :: r, k => if k' = k then some v else find? r k

/-- The assignment `m[k] = v`: overwrite the value under `k`, or add the entry. -/
def assign : CategoryMap → SLocation → String → CategoryMap
  | [], k, v => [(k, v)]
  | (k', v') :: r, k, v => if k' = k then (k', v) :: r else (k', v') :: assign r k v

/-- The read `m[k]`: the value under `k`; an absent key is first inserted with the
default-constructed (empty) string. Returns the value and the map afterwards. -/
def subscript (m : CategoryMap) (k : SLocation) : String × CategoryMap :=
  match find? m k with
  | some v => (v, m)
  | none => ("", assign m k "")

end CategoryMap

/-! ## The output streams -/

/-- One line of `m_ofOutputFile` (the detail log). -/
inductive DetailLine where
  | header (objectCount : Nat)
  | tick (clock numRobots : Nat)
  | agent (id : String) (eventCount : Nat)
  | event (voted actual : String) (radius : Int) (elapsed : Option Int) (x y z : Int)
  | load (fLoad : Option ℚ) (bytesSent : Nat)
deriving DecidableEq

/-- One line of `m_ofHistogramFile`. -/
inductive HistogramLine where
  | header (numRobots : Nat)
  | tick (clock : Nat)
  | agent (nodeId tupleCount : Nat)
  | tuple (identifier hash : Nat)
deriving DecidableEq

/-! ## The monitor -/

/-- Modelled from the spec: the header `point_cloud_loop_functions.h` is not among the
sources. Its two constants used by `IsExperimentFinished` and the width (in bits) of the
member `m_unStorageCapacity` are parameters of the embedding. -/
structure Header where
  NUM_POINT_CLOUDS : Nat
  MAX_TIME : Nat
  capacityBits : Nat

/-- The members of `CPointCloudLoopFunctions`. The controllers the monitor points to are
held by value, in enumeration order; the streams are the lines written so far. The member
`m_vecRobots` is filled by `Init` and never read, and is left out. -/
structure CPointCloudLoopFunctions where
  m_unClock : Nat
  m_unNumRobots : Nat
  m_unStorageCapacity : Nat
  m_unRoutingCapacity : Nat
  m_vecControllers : List CCollectivePerception
  m_mapActualCategories : CategoryMap
  m_mapVotedCategories : CategoryMap
  m_ofOutputFile : List DetailLine
  m_ofHistogramFile : List HistogramLine

/-- The constructor: `m_unClock(0)`, everything else empty. -/
def CPointCloudLoopFunctions.new : CPointCloudLoopFunctions :=
  { m_unClock := 0, m_unNumRobots := 0, m_unStorageCapacity := 0, m_unRoutingCapacity := 0,
    m_vecControllers := [], m_mapActualCategories := [], m_mapVotedCategories := [],
    m_ofOutputFile := [], m_ofHistogramFile := [] }

/-- The `params` node of the controller configuration: each attribute may be absent. -/
structure TConfigurationNode where
  min_votes : Option Nat
  storage : Option Nat
  routing : Option Nat
  bucket : Option Nat

/-- The only way `Init` stops early: `GetNodeAttribute` throws on an absent attribute. -/
inductive InitError where
  | missingAttribute (name : String)
deriving DecidableEq, Repr

/-- GetNodeAttribute: the value of an attribute, or the exception. -/
def GetNodeAttribute (value : Option Nat) (name : String) : Except InitError Nat :=
  match value with
  | some v => .ok v
  | none => .error (.missingAttribute name)

/-- The state threaded through the first loop of `Init` (lines 65-74). -/
structure InitAcc where
  storageCapacity : Nat
  routingCapacity : Nat
  vecControllers : List CCollectivePerception

/-- One iteration of the loop over the robots in `Init`. -/
def initRobotStep (h : Header) (a : InitAcc) (cController : CCollectivePerception) : InitAcc :=
  let c1 := cController.SetNumStoredTuples 0
  let routing := (a.routingCapacity + c1.GetRoutingCapacity) % 2 ^ h.capacityBits
  let storage := (a.storageCapacity + c1.GetStorageCapacity) % 2 ^ h.capacityBits
  let c2 := c1.ResetBytesSent
  { storageCapacity := storage, routingCapacity := routing,
    vecControllers := a.vecControllers ++ [c2] }

/-- The second loop of `Init` (lines 77-82): `m_mapActualCategories[sLocation] = category`. -/
def registerPointClouds (m : CategoryMap) (cPointClouds : List (SLocation × String)) :
    CategoryMap :=
  cPointClouds.foldl (fun acc p => acc.assign p.1 p.2) m

/-- Init on a freshly constructed monitor: parse the four attributes, enumerate the robots
(summing capacities, resetting their counters), write the histogram header, register
the point clouds, write the detail-log header. The file names built from the attributes
only select which files are opened and are not part of the state. -/
def Init (h : Header) (tParams : TConfigurationNode) (cRobots : List CCollectivePerception)
    (cPointClouds : List (SLocation × String)) : Except InitError CPointCloudLoopFunctions := do
  let _unMinVotes ← GetNodeAttribute tParams.min_votes "min_votes"
  let _unStorageMemory ← GetNodeAttribute tParams.storage "storage"
  let _unRoutingMemory ← GetNodeAttribute tParams.routing "routing"
  let _unHashing ← GetNodeAttribute tParams.bucket "bucket"
  let this := CPointCloudLoopFunctions.new
  let a := cRobots.foldl (initRobotStep h)
    { storageCapacity := 0, routingCapacity := 0, vecControllers := this.m_vecControllers }
  pure { this with
    m_unNumRobots := cRobots.length
    m_unStorageCapacity := a.storageCapacity
    m_unRoutingCapacity := a.routingCapacity
    m_vecControllers := a.vecControllers
    m_ofHistogramFile := this.m_ofHistogramFile ++ [.header cRobots.length]
    m_mapActualCategories := registerPointClouds this.m_mapActualCategories cPointClouds
    m_ofOutputFile := this.m_ofOutputFile ++ [.header cPointClouds.length] }

/-- PreStep: store the simulation clock. -/
def PreStep (s : CPointCloudLoopFunctions) (clock : Nat) : CPointCloudLoopFunctions :=
  { s with m_unClock := clock }

/-- The locals and members `PostStep` updates while it loops over the controllers;
`vecControllers` collects the controllers already visited, as the loop leaves them. -/
structure PostStepAcc where
  unTotalMessages : Nat
  unTotalTuples : Nat
  unTotalBytesSent : Nat
  mapActualCategories : CategoryMap
  mapVotedCategories : CategoryMap
  ofOutputFile : List DetailLine
  ofHistogramFile : List HistogramLine
  vecControllers : List CCollectivePerception

/-- One iteration of the inner loop of `PostStep` (lines 154-163) for index `i`. -/
def votingStep (vecTimingInfo : List STimingInfo) (a : PostStepAcc) (i : Nat)
    (sVotingDecision : SEventData) : PostStepAcc :=
  let sTimingInfo := vecTimingInfo[i]?
  let r := a.mapActualCategories.subscript sVotingDecision.Location
  let strActualCategory := r.1
  { a with
    mapActualCategories := r.2
    mapVotedCategories :=
      a.mapVotedCategories.assign sVotingDecision.Location sVotingDecision.Payload.Category
    ofOutputFile := a.ofOutputFile ++
      [.event sVotingDecision.Payload.Category strActualCategory sVotingDecision.Payload.Radius
        (sTimingInfo.map (fun t => t.LastUpdate - t.Start))
        sVotingDecision.Location.X sVotingDecision.Location.Y sVotingDecision.Location.Z] }

/-- The inner loop of `PostStep` (line 153) over the voting decisions from index `i` on. -/
def votingLoop (vecTimingInfo : List STimingInfo) :
    Nat → List SEventData → PostStepAcc → PostStepAcc
  | _, [], a => a
  | i, e :: es, a => votingLoop vecTimingInfo (i + 1) es (votingStep vecTimingInfo a i e)

/-- One iteration of the outer loop of `PostStep` (lines 141-173) for one controller. -/
def controllerStep (a : PostStepAcc) (c : CCollectivePerception) : PostStepAcc :=
  let a1 := { a with
    unTotalMessages := (a.unTotalMessages + c.GetMessageCount) % 65536
    unTotalTuples := (a.unTotalTuples + c.GetNumStoredTuples) % 4294967296
    unTotalBytesSent := (a.unTotalBytesSent + c.GetBytesSent) % 4294967296 }
  let c1 := c.ResetBytesSent
  let vecVotingDecisions := c1.GetVotingDecisions
  let vecTimingInfo := c1.GetTimingInfo
  let a2 := { a1 with
    ofOutputFile := a1.ofOutputFile ++ [.agent c1.GetId vecVotingDecisions.length] }
  let a3 := votingLoop vecTimingInfo 0 vecVotingDecisions a2
  let vecTuples := c1.GetTuples
  let a4 := { a3 with
    ofHistogramFile := a3.ofHistogramFile ++ [HistogramLine.agent c1.GetNodeID vecTuples.length] ++
      vecTuples.map (fun (sTuple : STuple) => HistogramLine.tuple sTuple.Key.Identifier sTuple.Key.Hash) }
  let c2 := ((c1.ClearTimingInfo).SetMessageCount 0).SetNumStoredTuples 0
  { a4 with vecControllers := a4.vecControllers ++ [c2] }

/-- The value of `unTotalTuples / static_cast<float>(m_unStorageCapacity)`: an exact
quotient, `none` when the divisor is zero (the float is then infinite or not a number). -/
def fLoad (unTotalTuples unStorageCapacity : Nat) : Option ℚ :=
  if unStorageCapacity = 0 then none
  else some ((unTotalTuples : ℚ) / (unStorageCapacity : ℚ))

/-- The state of the locals and members of `PostStep` when its loop ends (line 174). -/
def postStepLoop (s : CPointCloudLoopFunctions) : PostStepAcc :=
  s.m_vecControllers.foldl controllerStep
    { unTotalMessages := 0, unTotalTuples := 0, unTotalBytesSent := 0,
      mapActualCategories := s.m_mapActualCategories,
      mapVotedCategories := s.m_mapVotedCategories,
      ofOutputFile := s.m_ofOutputFile ++ [.tick s.m_unClock s.m_unNumRobots],
      ofHistogramFile := s.m_ofHistogramFile ++ [.tick s.m_unClock],
      vecControllers := [] }

/-- PostStep: the tick line, the loop over the controllers, the trailing load line. -/
def PostStep (s : CPointCloudLoopFunctions) : CPointCloudLoopFunctions :=
  let a := postStepLoop s
  { s with
    m_vecControllers := a.vecControllers
    m_mapActualCategories := a.mapActualCategories
    m_mapVotedCategories := a.mapVotedCategories
    m_ofHistogramFile := a.ofHistogramFile
    m_ofOutputFile := a.ofOutputFile ++
      [.load (fLoad a.unTotalTuples s.m_unStorageCapacity) a.unTotalBytesSent] }

/-- IsExperimentFinished: all point clouds voted, or the clock past `MAX_TIME`. -/
def IsExperimentFinished (h : Header) (s : CPointCloudLoopFunctions) : Bool :=
  if s.m_mapVotedCategories.size = h.NUM_POINT_CLOUDS ∨ s.m_unClock > h.MAX_TIME then
    true
  else
    false

/-- What the engine does between two calls of `PostStep`: it advances the clock and the
robots run their controllers, leaving them in some state. -/
structure TickInput where
  clock : Nat
  controllers : List CCollectivePerception

/-- One tick: the robots have run, then `PreStep` and `PostStep`. -/
def tick (s : CPointCloudLoopFunctions) (t : TickInput) : CPointCloudLoopFunctions :=
  PostStep (PreStep { s with m_vecControllers := t.controllers } t.clock)

/-- A sequence of ticks. -/
def run (s : CPointCloudLoopFunctions) (ts : List TickInput) : CPointCloudLoopFunctions :=
  ts.foldl tick s

/-! ## Specification-side vocabulary -/

/-- The read of a map with the default of `operator[]`: the empty string when absent. -/
def CategoryMap.lookupD (m : CategoryMap) (k : SLocation) : String := (m.find? k).getD ""

/-- The upsert a voting decision performs on the voted-category map. -/
def recordVote (m : CategoryMap) (e : SEventData) : CategoryMap :=
  m.assign e.Location e.Payload.Category

/-- All voting decisions of a tick: agents in enumeration order, events in list order. -/
def allEvents (cs : List CCollectivePerception) : List SEventData :=
  cs.flatMap (fun c => c.VotingDecisions)

/-- The event line the `j`-th voting decision of an agent is expected to produce. -/
def eventLine (actual : CategoryMap) (timing : List STimingInfo) (j : Nat) (e : SEventData) :
    DetailLine :=
  .event e.Payload.Category (actual.lookupD e.Location) e.Payload.Radius
    ((timing[j]?).map (fun t => t.LastUpdate - t.Start)) e.Location.X e.Location.Y e.Location.Z

/-- The block of detail lines of one agent: its `<agentId> k` line, then `k` event lines. -/
def agentBlock (actual : CategoryMap) (c : CCollectivePerception) : List DetailLine :=
  .agent c.Id c.VotingDecisions.length ::
    (c.VotingDecisions.enumFrom 0).map (fun p => eventLine actual c.TimingInfo p.1 p.2)

/-- The controller as `PostStep` leaves it. -/
def drained (c : CCollectivePerception) : CCollectivePerception :=
  { c with MessageCount := 0, NumStoredTuples := 0, BytesSent := 0, TimingInfo := [] }

/-- An event line whose timing record was read past the end of the timing vector. -/
def DetailLine.outOfBounds : DetailLine → Bool
  | .event _ _ _ none _ _ _ => true
  | _ => false

/-- The lines `PostStep` appends to the detail log. -/
def writtenDetail (s : CPointCloudLoopFunctions) : List DetailLine :=
  (PostStep s).m_ofOutputFile.drop s.m_ofOutputFile.length

/-- The reads `m_mapActualCategories[Location]` of a list of events, as a map transformer. -/
def readActual (m : CategoryMap) (es : List SEventData) : CategoryMap :=
  es.foldl (fun acc e => (acc.subscript e.Location).2) m

/-- The sum of the message counts of the controllers, as the 16-bit local holds it. -/
def totalMessages (cs : List CCollectivePerception) : Nat :=
  (cs.map (fun c => c.MessageCount)).sum % 65536

/-- The sum of the stored-tuple counts of the controllers, as the 32-bit local holds it. -/
def totalTuples (cs : List CCollectivePerception) : Nat :=
  (cs.map (fun c => c.NumStoredTuples)).sum % 4294967296

/-- The sum of the bytes-sent counters of the controllers, as the 32-bit local holds it. -/
def totalBytesSent (cs : List CCollectivePerception) : Nat :=
  (cs.map (fun c => c.BytesSent)).sum % 4294967296

/-! ## Concrete configurations used to exercise the statements -/

/-- A complete `params` node. -/
def exampleParams : TConfigurationNode :=
  { min_votes := some 3, storage := some 10, routing := some 10, bucket := some 4 }

/-- First object location. -/
def locA : SLocation := ⟨1, 2, 0⟩

/-- Second object location. -/
def locB : SLocation := ⟨4, 5, 0⟩

/-- A location at which no object stands. -/
def locC : SLocation := ⟨7, 7, 7⟩

/-- The two registered point clouds of the round-trip scenario. -/
def examplePointClouds : List (SLocation × String) := [(locA, "A"), (locB, "B")]

/-- An idle robot with storage capacity 10. -/
def idleRobot (id : String) (node : Nat) : CCollectivePerception :=
  { Id := id, NodeID := node, MessageCount := 0, NumStoredTuples := 0, BytesSent := 0,
    RoutingCapacity := 10, StorageCapacity := 10, VotingDecisions := [], TimingInfo := [],
    Tuples := [] }

/-- A robot that has just voted once: one event, one timing record, some traffic. -/
def votingRobot (id : String) (node : Nat) (l : SLocation) (cat : String) :
    CCollectivePerception :=
  { Id := id, NodeID := node, MessageCount := 2, NumStoredTuples := 1, BytesSent := 24,
    RoutingCapacity := 10, StorageCapacity := 10,
    VotingDecisions := [{ Location := l, Payload := { Category := cat, Radius := 3 } }],
    TimingInfo := [{ Start := 1, LastUpdate := 4 }],
    Tuples := [{ Key := { Identifier := 1, Hash := 9 } }] }

/-- The three robots of the round-trip scenario at setup. -/
def exampleRobots : List CCollectivePerception :=
  [idleRobot "fb0" 0, idleRobot "fb1" 1, idleRobot "fb2" 2]

/-- Tick 1 of the round-trip scenario: agent 0 votes `A` for object 1, agent 1 votes `B`
for object 2, agent 2 is idle. -/
def exampleTick : TickInput :=
  { clock := 1,
    controllers := [votingRobot "fb0" 0 locA "A", votingRobot "fb1" 1 locB "B",
      idleRobot "fb2" 2] }

/-- A tick in which agent 0 votes `A` and then agent 1 votes `B` for the same object. -/
def conflictTick : TickInput :=
  { clock := 1,
    controllers := [votingRobot "fb0" 0 locA "A", votingRobot "fb1" 1 locA "B",
      idleRobot "fb2" 2] }

/-- A tick in which the only robot votes for a location where no object stands. -/
def strayTick : TickInput :=
  { clock := 1, controllers := [votingRobot "fb0" 0 locC "B"] }

/-- A robot without any storage. -/
def zeroCapacityRobot : CCollectivePerception :=
  { idleRobot "fb0" 0 with StorageCapacity := 0 }

/-- The monitor `Init` yields for a complete `params` node (the fresh monitor should `Init`
stop on an absent attribute, which it does not for `exampleParams`). -/
def setup (h : Header) (cRobots : List CCollectivePerception)
    (cPointClouds : List (SLocation × String)) : CPointCloudLoopFunctions :=
  match Init h exampleParams cRobots cPointClouds with
  | .ok s => s
  | .error _ => CPointCloudLoopFunctions.new

/-! ## Lemmas on the maps -/

namespace CategoryMap

theorem find?_assign_same (m : CategoryMap) (k : SLocation) (v : String) :
    (m.assign k v).find? k = some v := by
  induction m with
  | nil => simp [assign, find?]
  | cons p r ih =>
    obtain ⟨k', v'⟩ := p
    by_cases hk : k' = k
    · simp [assign, find?, hk]
    · simp [assign, find?, hk, ih]

theorem find?_assign_other (m : CategoryMap) (k k' : SLocation) (v : String) (hne : k ≠ k') :
    (m.assign k v).find? k' = m.find? k' := by
  induction m with
  | nil => simp [assign, find?, hne]
  | cons p r ih =>
    obtain ⟨k₀, v₀⟩ := p
    by_cases hk : k₀ = k
    · subst hk
      simp [assign, find?, hne]
    · by_cases hk' : k₀ = k'
      · subst hk'
        have hk2 : ¬ k₀ = k := hk
        simp [assign, find?, hk2]
      · simp [assign, find?, hk, hk', ih]

theorem keys_assign (m : CategoryMap) (k : SLocation) (v : String) :
    keys (m.assign k v) = if k ∈ keys m then keys m else keys m ++ [k] := by
  induction m with
  | nil => simp [assign, keys]
  | cons p r ih =>
    obtain ⟨k₀, v₀⟩ := p
    by_cases hk : k₀ = k
    · subst hk
      simp [assign, keys]
    · have hk' : ¬ k = k₀ := fun h => hk h.symm
      simp only [keys] at ih
      by_cases hmem : k ∈ List.map Prod.fst r
      · simp [assign, keys, hk, hk', hmem, ih]
      · simp [assign, keys, hk, hk', hmem, ih]

theorem mem_keys_assign_of_mem (m : CategoryMap) (k l : SLocation) (v : String)
    (hl : l ∈ keys m) : l ∈ keys (m.assign k v) := by
  rw [keys_assign]
  split
  · exact hl
  · exact List.mem_append_left _ hl

theorem size_assign (m : CategoryMap) (k : SLocation) (v : String) :
    size (m.assign k v) = if k ∈ keys m then size m else size m + 1 := by
  have h := congrArg List.length (keys_assign m k v)
  simp only [keys, List.length_map] at h
  simp only [size, keys, h]
  split <;> simp

theorem size_le_size_assign (m : CategoryMap) (k : SLocation) (v : String) :
    size m ≤ size (m.assign k v) := by
  rw [size_assign]
  split <;> omega

theorem WF_assign (m : CategoryMap) (k : SLocation) (v : String) (hm : WF m) :
    WF (m.assign k v) := by
  unfold WF at *
  rw [keys_assign]
  split
  · exact hm
  · rename_i hk
    exact List.Nodup.append hm (List.nodup_singleton k) (by simpa using hk)

theorem find?_eq_none_iff (m : CategoryMap) (k : SLocation) :
    m.find? k = none ↔ k ∉ keys m := by
  induction m with
  | nil => simp [find?, keys]
  | cons p r ih =>
    obtain ⟨k₀, v₀⟩ := p
    simp only [keys] at ih
    by_cases hk : k₀ = k
    · simp [find?, keys, hk]
    · have hk' : ¬ k = k₀ := fun h => hk h.symm
      simp [find?, keys, hk, hk', ih]

theorem subscript_fst (m : CategoryMap) (k : SLocation) : (m.subscript k).1 = m.lookupD k := by
  unfold subscript lookupD
  cases h : m.find? k <;> simp

theorem subscript_snd_of_mem (m : CategoryMap) (k : SLocation) (hk : k ∈ keys m) :
    (m.subscript k).2 = m := by
  unfold subscript
  cases h : m.find? k with
  | none => exact absurd hk ((find?_eq_none_iff m k).1 h)
  | some v => rfl

theorem lookupD_subscript (m : CategoryMap) (k k' : SLocation) :
    (m.subscript k).2.lookupD k' = m.lookupD k' := by
  unfold subscript
  cases h : m.find? k with
  | some v => rfl
  | none =>
    by_cases hk : k = k'
    · subst hk
      simp [lookupD, find?_assign_same, h]
    · simp [lookupD, find?_assign_other m k k' "" hk]

end CategoryMap

/-! ## Lemmas on the inner loop of `PostStep` -/

theorem lookupD_readActual (es : List SEventData) (m : CategoryMap) (k : SLocation) :
    (readActual m es).lookupD k = m.lookupD k := by
  induction es generalizing m with
  | nil => rfl
  | cons e es ih =>
    have h := ih (m.subscript e.Location).2
    simp only [readActual, List.foldl_cons] at h ⊢
    rw [h, CategoryMap.lookupD_subscript]

theorem eventLine_congr (m m' : CategoryMap) (h : ∀ k, m'.lookupD k = m.lookupD k)
    (t : List STimingInfo) (j : Nat) (e : SEventData) :
    eventLine m' t j e = eventLine m t j e := by
  simp [eventLine, h]

theorem agentBlock_congr (m m' : CategoryMap) (h : ∀ k, m'.lookupD k = m.lookupD k)
    (c : CCollectivePerception) : agentBlock m' c = agentBlock m c := by
  simp [agentBlock, eventLine_congr m m' h]

theorem votingLoop_voted (t : List STimingInfo) (es : List SEventData) (i : Nat)
    (a : PostStepAcc) :
    (votingLoop t i es a).mapVotedCategories = es.foldl recordVote a.mapVotedCategories := by
  induction es generalizing i a with
  | nil => rfl
  | cons e es ih => simp [votingLoop, ih, votingStep, recordVote]

theorem votingLoop_actual (t : List STimingInfo) (es : List SEventData) (i : Nat)
    (a : PostStepAcc) :
    (votingLoop t i es a).mapActualCategories = readActual a.mapActualCategories es := by
  induction es generalizing i a with
  | nil => rfl
  | cons e es ih => simp [votingLoop, ih, votingStep, readActual]

theorem votingLoop_frame (t : List STimingInfo) (es : List SEventData) (i : Nat)
    (a : PostStepAcc) :
    (votingLoop t i es a).unTotalMessages = a.unTotalMessages ∧
    (votingLoop t i es a).unTotalTuples = a.unTotalTuples ∧
    (votingLoop t i es a).unTotalBytesSent = a.unTotalBytesSent ∧
    (votingLoop t i es a).ofHistogramFile = a.ofHistogramFile ∧
    (votingLoop t i es a).vecControllers = a.vecControllers := by
  induction es generalizing i a with
  | nil => simp [votingLoop]
  | cons e es ih =>
    have h := ih (i + 1) (votingStep t a i e)
    simpa [votingLoop, votingStep] using h

theorem votingLoop_output (t : List STimingInfo) (es : List SEventData) (i : Nat)
    (a : PostStepAcc) :
    (votingLoop t i es a).ofOutputFile = a.ofOutputFile ++
      (es.enumFrom i).map (fun p => eventLine a.mapActualCategories t p.1 p.2) := by
  induction es generalizing i a with
  | nil => simp [votingLoop]
  | cons e es ih =>
    have hcongr : ∀ (j : Nat) (e' : SEventData),
        eventLine (votingStep t a i e).mapActualCategories t j e' =
          eventLine a.mapActualCategories t j e' := fun j e' =>
      eventLine_congr _ _ (fun k => CategoryMap.lookupD_subscript _ _ k) t j e'
    have hline : (votingStep t a i e).ofOutputFile =
        a.ofOutputFile ++ [eventLine a.mapActualCategories t i e] := by
      simp [votingStep, eventLine, CategoryMap.subscript_fst]
    rw [votingLoop, ih, hline]
    simp [List.enumFrom_cons, hcongr]

/-! ## Lemmas on the outer loop of `PostStep` -/

theorem controllerStep_voted (a : PostStepAcc) (c : CCollectivePerception) :
    (controllerStep a c).mapVotedCategories =
      c.VotingDecisions.foldl recordVote a.mapVotedCategories := by
  simp [controllerStep, votingLoop_voted, CCollectivePerception.GetVotingDecisions,
    CCollectivePerception.ResetBytesSent]

theorem controllerStep_actual (a : PostStepAcc) (c : CCollectivePerception) :
    (controllerStep a c).mapActualCategories =
      readActual a.mapActualCategories c.VotingDecisions := by
  simp [controllerStep, votingLoop_actual, CCollectivePerception.GetVotingDecisions,
    CCollectivePerception.ResetBytesSent]

theorem controllerStep_output (a : PostStepAcc) (c : CCollectivePerception) :
    (controllerStep a c).ofOutputFile =
      a.ofOutputFile ++ agentBlock a.mapActualCategories c := by
  simp [controllerStep, votingLoop_output, agentBlock, CCollectivePerception.GetVotingDecisions,
    CCollectivePerception.ResetBytesSent, CCollectivePerception.GetTimingInfo,
    CCollectivePerception.GetId]

theorem controllerStep_controllers (a : PostStepAcc) (c : CCollectivePerception) :
    (controllerStep a c).vecControllers = a.vecControllers ++ [drained c] := by
  simp [controllerStep, (votingLoop_frame _ _ _ _).2.2.2.2, drained,
    CCollectivePerception.ResetBytesSent, CCollectivePerception.ClearTimingInfo,
    CCollectivePerception.SetMessageCount, CCollectivePerception.SetNumStoredTuples]

theorem controllerStep_totals (a : PostStepAcc) (c : CCollectivePerception) :
    (controllerStep a c).unTotalMessages = (a.unTotalMessages + c.MessageCount) % 65536 ∧
    (controllerStep a c).unTotalTuples = (a.unTotalTuples + c.NumStoredTuples) % 4294967296 ∧
    (controllerStep a c).unTotalBytesSent = (a.unTotalBytesSent + c.BytesSent) % 4294967296 := by
  simp [controllerStep, (votingLoop_frame _ _ _ _).1, (votingLoop_frame _ _ _ _).2.1,
    (votingLoop_frame _ _ _ _).2.2.1, CCollectivePerception.GetMessageCount,
    CCollectivePerception.GetNumStoredTuples, CCollectivePerception.GetBytesSent]

theorem foldl_recordVote_flatMap (cs : List CCollectivePerception) (m : CategoryMap) :
    cs.foldl (fun acc c => c.VotingDecisions.foldl recordVote acc) m =
      (allEvents cs).foldl recordVote m := by
  induction cs generalizing m with
  | nil => rfl
  | cons c cs ih => simp [allEvents, List.foldl_append, ih] at ih ⊢

theorem loop_voted (cs : List CCollectivePerception) (a : PostStepAcc) :
    (cs.foldl controllerStep a).mapVotedCategories =
      (allEvents cs).foldl recordVote a.mapVotedCategories := by
  rw [← foldl_recordVote_flatMap]
  induction cs generalizing a with
  | nil => rfl
  | cons c cs ih => simp [ih, controllerStep_voted]

theorem loop_output (cs : List CCollectivePerception) (a : PostStepAcc) :
    (cs.foldl controllerStep a).ofOutputFile =
      a.ofOutputFile ++ cs.flatMap (agentBlock a.mapActualCategories) := by
  induction cs generalizing a with
  | nil => simp
  | cons c cs ih =>
    have hc : ∀ c', agentBlock (controllerStep a c).mapActualCategories c' =
        agentBlock a.mapActualCategories c' := fun c' =>
      agentBlock_congr _ _ (fun k => by rw [controllerStep_actual, lookupD_readActual]) c'
    have hf : agentBlock (controllerStep a c).mapActualCategories =
        agentBlock a.mapActualCategories := funext hc
    simp [ih, controllerStep_output, hf]

theorem loop_controllers (cs : List CCollectivePerception) (a : PostStepAcc) :
    (cs.foldl controllerStep a).vecControllers = a.vecControllers ++ cs.map drained := by
  induction cs generalizing a with
  | nil => simp
  | cons c cs ih => simp [ih, controllerStep_controllers]

theorem loop_totals (cs : List CCollectivePerception) (a : PostStepAcc) :
    (cs.foldl controllerStep a).unTotalMessages % 65536 =
      (a.unTotalMessages + (cs.map (fun c => c.MessageCount)).sum) % 65536 ∧
    (cs.foldl controllerStep a).unTotalTuples % 4294967296 =
      (a.unTotalTuples + (cs.map (fun c => c.NumStoredTuples)).sum) % 4294967296 ∧
    (cs.foldl controllerStep a).unTotalBytesSent % 4294967296 =
      (a.unTotalBytesSent + (cs.map (fun c => c.BytesSent)).sum) % 4294967296 := by
  induction cs generalizing a with
  | nil => simp
  | cons c cs ih =>
    obtain ⟨h1, h2, h3⟩ := ih (controllerStep a c)
    obtain ⟨t1, t2, t3⟩ := controllerStep_totals a c
    simp only [List.foldl_cons, List.map_cons, List.sum_cons]
    rw [h1, h2, h3, t1, t2, t3]
    refine ⟨?_, ?_, ?_⟩ <;> omega

theorem loop_totals_lt (cs : List CCollectivePerception) (a : PostStepAcc)
    (h1 : a.unTotalMessages < 65536) (h2 : a.unTotalTuples < 4294967296)
    (h3 : a.unTotalBytesSent < 4294967296) :
    (cs.foldl controllerStep a).unTotalMessages < 65536 ∧
    (cs.foldl controllerStep a).unTotalTuples < 4294967296 ∧
    (cs.foldl controllerStep a).unTotalBytesSent < 4294967296 := by
  induction cs generalizing a with
  | nil => exact ⟨h1, h2, h3⟩
  | cons c cs ih =>
    obtain ⟨t1, t2, t3⟩ := controllerStep_totals a c
    exact ih (controllerStep a c) (by rw [t1]; omega) (by rw [t2]; omega) (by rw [t3]; omega)

/-! ## `PostStep` as a whole -/

theorem postStepLoop_totals (s : CPointCloudLoopFunctions) :
    (postStepLoop s).unTotalMessages = totalMessages s.m_vecControllers ∧
    (postStepLoop s).unTotalTuples = totalTuples s.m_vecControllers ∧
    (postStepLoop s).unTotalBytesSent = totalBytesSent s.m_vecControllers := by
  obtain ⟨e1, e2, e3⟩ := loop_totals s.m_vecControllers
    { unTotalMessages := 0, unTotalTuples := 0, unTotalBytesSent := 0,
      mapActualCategories := s.m_mapActualCategories,
      mapVotedCategories := s.m_mapVotedCategories,
      ofOutputFile := s.m_ofOutputFile ++ [.tick s.m_unClock s.m_unNumRobots],
      ofHistogramFile := s.m_ofHistogramFile ++ [.tick s.m_unClock],
      vecControllers := [] }
  obtain ⟨l1, l2, l3⟩ := loop_totals_lt s.m_vecControllers
    { unTotalMessages := 0, unTotalTuples := 0, unTotalBytesSent := 0,
      mapActualCategories := s.m_mapActualCategories,
      mapVotedCategories := s.m_mapVotedCategories,
      ofOutputFile := s.m_ofOutputFile ++ [.tick s.m_unClock s.m_unNumRobots],
      ofHistogramFile := s.m_ofHistogramFile ++ [.tick s.m_unClock],
      vecControllers := [] } (by simp) (by simp) (by simp)
  simp only [Nat.zero_add] at e1 e2 e3
  rw [Nat.mod_eq_of_lt l1] at e1
  rw [Nat.mod_eq_of_lt l2] at e2
  rw [Nat.mod_eq_of_lt l3] at e3
  exact ⟨e1, e2, e3⟩

theorem PostStep_voted (s : CPointCloudLoopFunctions) :
    (PostStep s).m_mapVotedCategories =
      (allEvents s.m_vecControllers).foldl recordVote s.m_mapVotedCategories := by
  simp [PostStep, postStepLoop, loop_voted]

theorem PostStep_controllers (s : CPointCloudLoopFunctions) :
    (PostStep s).m_vecControllers = s.m_vecControllers.map drained := by
  simp [PostStep, postStepLoop, loop_controllers]

theorem PostStep_output (s : CPointCloudLoopFunctions) :
    (PostStep s).m_ofOutputFile = s.m_ofOutputFile ++
      (DetailLine.tick s.m_unClock s.m_unNumRobots ::
        s.m_vecControllers.flatMap (agentBlock s.m_mapActualCategories)) ++
      [DetailLine.load (fLoad (totalTuples s.m_vecControllers) s.m_unStorageCapacity)
        (totalBytesSent s.m_vecControllers)] := by
  obtain ⟨_, t2, t3⟩ := postStepLoop_totals s
  have ho : (postStepLoop s).ofOutputFile = s.m_ofOutputFile ++
      (DetailLine.tick s.m_unClock s.m_unNumRobots ::
        s.m_vecControllers.flatMap (agentBlock s.m_mapActualCategories)) := by
    simp [postStepLoop, loop_output]
  simp only [PostStep, t2, t3, ho]

theorem writtenDetail_eq (s : CPointCloudLoopFunctions) :
    writtenDetail s =
      (DetailLine.tick s.m_unClock s.m_unNumRobots ::
        s.m_vecControllers.flatMap (agentBlock s.m_mapActualCategories)) ++
      [DetailLine.load (fLoad (totalTuples s.m_vecControllers) s.m_unStorageCapacity)
        (totalBytesSent s.m_vecControllers)] := by
  unfold writtenDetail
  rw [PostStep_output, List.append_assoc, List.drop_left]

/-! ## Termination predicate -/

theorem IsExperimentFinished_eq (h : Header) (s : CPointCloudLoopFunctions) :
    IsExperimentFinished h s = true ↔
      (s.m_mapVotedCategories.size = h.NUM_POINT_CLOUDS ∨ h.MAX_TIME < s.m_unClock) := by
  unfold IsExperimentFinished
  split <;> simp_all

/-- C1 (as amended): `IsExperimentFinished` returns true exactly when the number of entries
of the voted-category map equals the constant `NUM_POINT_CLOUDS` of the header, or the stored
clock is strictly greater than `MAX_TIME`. It follows the number of registered objects only
when that number is the constant: then it is true iff the voted count equals the size of the
ground-truth map `Init` built, or the clock is past the ceiling. With the constant 2 and two
voted locations it is true at any tick; with the constant 1, no votes and ceiling 100 it is
false for every tick up to 100 and true from tick 101 on. -/
theorem isExperimentFinished_iff_constant (h : Header) (s : CPointCloudLoopFunctions) :
    (IsExperimentFinished h s = true ↔
      (s.m_mapVotedCategories.size = h.NUM_POINT_CLOUDS ∨ h.MAX_TIME < s.m_unClock)) ∧
    (∀ (tParams : TConfigurationNode) (cRobots : List CCollectivePerception)
        (cPointClouds : List (SLocation × String)) (s₀ : CPointCloudLoopFunctions),
      Init h tParams cRobots cPointClouds = .ok s₀ →
      s₀.m_mapActualCategories.size = h.NUM_POINT_CLOUDS →
      (IsExperimentFinished h s = true ↔
        (s.m_mapVotedCategories.size = s₀.m_mapActualCategories.size ∨
          h.MAX_TIME < s.m_unClock))) ∧
    (h.NUM_POINT_CLOUDS = 2 → s.m_mapVotedCategories.size = 2 →
      IsExperimentFinished h s = true) ∧
    (h.NUM_POINT_CLOUDS = 1 → h.MAX_TIME = 100 → s.m_mapVotedCategories = [] →
      (s.m_unClock ≤ 100 → IsExperimentFinished h s = false) ∧
      (101 ≤ s.m_unClock → IsExperimentFinished h s = true)) := by
  refine ⟨IsExperimentFinished_eq h s, ?_, ?_, ?_⟩
  · intro tParams cRobots cPointClouds s₀ _ hsize
    rw [IsExperimentFinished_eq, hsize]
  · intro hn hv
    rw [IsExperimentFinished_eq]
    exact Or.inl (by rw [hv, hn])
  · intro hn hm hv
    constructor
    · intro hle
      cases hfin : IsExperimentFinished h s with
      | false => rfl
      | true =>
        rw [IsExperimentFinished_eq, hv, hn, hm] at hfin
        rcases hfin with h0 | h1
        · simp [CategoryMap.size] at h0
        · omega
    · intro hge
      rw [IsExperimentFinished_eq, hm]
      exact Or.inr (by omega)

/-- C1, scenario check: in the round-trip scenario (three robots, two objects, header
constant 2) the monitor is finished after tick 1; in the ceiling scenario (one robot, one
object, header constant 1, ceiling 100, no votes) it is not finished at tick 100 and is
finished at tick 101. -/
theorem isExperimentFinished_iff_constant_witness :
    IsExperimentFinished ⟨2, 100, 32⟩
        (tick (setup ⟨2, 100, 32⟩ exampleRobots examplePointClouds) exampleTick) = true ∧
    IsExperimentFinished ⟨1, 100, 32⟩
        (tick (setup ⟨1, 100, 32⟩ [idleRobot "fb0" 0] [(locA, "A")])
          ⟨100, [idleRobot "fb0" 0]⟩) = false ∧
    IsExperimentFinished ⟨1, 100, 32⟩
        (tick (setup ⟨1, 100, 32⟩ [idleRobot "fb0" 0] [(locA, "A")])
          ⟨101, [idleRobot "fb0" 0]⟩) = true :=
  ⟨(isExperimentFinished_iff_constant ⟨2, 100, 32⟩ _).2.2.1 rfl (by decide),
   ((isExperimentFinished_iff_constant ⟨1, 100, 32⟩ _).2.2.2 rfl rfl (by decide)).1 (by decide),
   ((isExperimentFinished_iff_constant ⟨1, 100, 32⟩ _).2.2.2 rfl rfl (by decide)).2 (by decide)⟩

/-- C1 (as stated) fails: with the header constant `NUM_POINT_CLOUDS = 3` and two objects
registered by `Init`, after tick 1 of the round-trip scenario both registered objects are
voted (voted count = size of the ground-truth map `Init` built = 2) and the clock is below
the ceiling, yet `IsExperimentFinished` returns false. Nor is there any value of the header
constants for which the statement holds in every environment: right after setup, a constant
of 0 ends an experiment with one unvoted object, and any other constant keeps an experiment
without objects running. -/
theorem isExperimentFinished_ignores_registered_count :
    (∃ s₀ : CPointCloudLoopFunctions,
      Init ⟨3, 100, 32⟩ exampleParams exampleRobots examplePointClouds = .ok s₀ ∧
      s₀.m_mapActualCategories.size = 2 ∧
      (tick s₀ exampleTick).m_mapVotedCategories.size = s₀.m_mapActualCategories.size ∧
      (tick s₀ exampleTick).m_unClock ≤ 100 ∧
      IsExperimentFinished ⟨3, 100, 32⟩ (tick s₀ exampleTick) = false) ∧
    ¬ ∃ h : Header, ∀ (cRobots : List CCollectivePerception)
        (cPointClouds : List (SLocation × String)) (s₀ : CPointCloudLoopFunctions),
      Init h exampleParams cRobots cPointClouds = .ok s₀ →
      (IsExperimentFinished h s₀ = true ↔
        (s₀.m_mapVotedCategories.size = s₀.m_mapActualCategories.size ∨
          h.MAX_TIME < s₀.m_unClock)) := by
  refine ⟨⟨_, rfl, by decide, by decide, by decide, by decide⟩, ?_⟩
  rintro ⟨h, hall⟩
  by_cases hN : h.NUM_POINT_CLOUDS = 0
  · have hiff := hall [] [(locA, "A")] (setup h [] [(locA, "A")]) rfl
    have hfin : IsExperimentFinished h (setup h [] [(locA, "A")]) = true :=
      (IsExperimentFinished_eq h _).2 (Or.inl hN.symm)
    rcases hiff.1 hfin with h1 | h1
    · have h2 : (0 : Nat) = 1 := h1
      omega
    · exact absurd h1 (Nat.not_lt_zero _)
  · have hiff := hall [] [] (setup h [] []) rfl
    have hfin := hiff.2 (Or.inl rfl)
    rcases (IsExperimentFinished_eq h _).1 hfin with h1 | h1
    · exact hN h1.symm
    · exact absurd h1 (Nat.not_lt_zero _)

/-! ## The voted-category map -/

theorem find?_foldl_recordVote_of_not_mem (es : List SEventData) (m : CategoryMap)
    (l : SLocation) (hl : ∀ e ∈ es, e.Location ≠ l) :
    (es.foldl recordVote m).find? l = m.find? l := by
  induction es generalizing m with
  | nil => rfl
  | cons e es ih =>
    rw [List.foldl_cons, ih _ (fun e' he' => hl e' (List.mem_cons_of_mem _ he'))]
    exact CategoryMap.find?_assign_other m _ _ _ (hl e (List.mem_cons_self _ _))

theorem find?_foldl_recordVote_last (pre post : List SEventData) (e : SEventData)
    (m : CategoryMap) (hpost : ∀ e' ∈ post, e'.Location ≠ e.Location) :
    ((pre ++ e :: post).foldl recordVote m).find? e.Location = some e.Payload.Category := by
  rw [List.foldl_append, List.foldl_cons, find?_foldl_recordVote_of_not_mem _ _ _ hpost]
  exact CategoryMap.find?_assign_same _ _ _

theorem keys_foldl_recordVote (es : List SEventData) (m : CategoryMap) (l : SLocation)
    (hl : l ∈ m.keys) : l ∈ (es.foldl recordVote m).keys := by
  induction es generalizing m with
  | nil => exact hl
  | cons e es ih => exact ih _ (CategoryMap.mem_keys_assign_of_mem m _ l _ hl)

theorem size_foldl_recordVote (es : List SEventData) (m : CategoryMap) :
    m.size ≤ (es.foldl recordVote m).size := by
  induction es generalizing m with
  | nil => exact Nat.le_refl _
  | cons e es ih => exact Nat.le_trans (CategoryMap.size_le_size_assign m _ _) (ih _)

theorem WF_foldl_recordVote (es : List SEventData) (m : CategoryMap) (hm : m.WF) :
    (es.foldl recordVote m).WF := by
  induction es generalizing m with
  | nil => exact hm
  | cons e es ih => exact ih _ (CategoryMap.WF_assign m _ _ hm)

theorem tick_voted (s : CPointCloudLoopFunctions) (t : TickInput) :
    (tick s t).m_mapVotedCategories =
      (allEvents t.controllers).foldl recordVote s.m_mapVotedCategories := by
  simp [tick, PreStep, PostStep_voted]

theorem run_append_singleton (s : CPointCloudLoopFunctions) (pre : List TickInput)
    (t : TickInput) : run s (pre ++ [t]) = tick (run s pre) t := by
  simp [run, List.foldl_append]

theorem run_voted_WF (s : CPointCloudLoopFunctions) (ts : List TickInput)
    (hs : s.m_mapVotedCategories.WF) : (run s ts).m_mapVotedCategories.WF := by
  induction ts generalizing s with
  | nil => exact hs
  | cons t ts ih =>
    have h := ih (tick s t) (by rw [tick_voted]; exact WF_foldl_recordVote _ _ hs)
    simpa [run] using h

/-- C2: the voted-category map after `PostStep` is the prior map upserted with every voting
decision of the tick, agents in enumeration order and events in list order. A location
voted in the tick holds the category of its last event in that order; every other location
keeps its entry or its absence; two runs on equal inputs give equal maps. -/
theorem postStep_last_writer_wins (s : CPointCloudLoopFunctions) :
    (PostStep s).m_mapVotedCategories =
      (allEvents s.m_vecControllers).foldl recordVote s.m_mapVotedCategories ∧
    (∀ (pre post : List SEventData) (e : SEventData),
      allEvents s.m_vecControllers = pre ++ e :: post →
      (∀ e' ∈ post, e'.Location ≠ e.Location) →
      (PostStep s).m_mapVotedCategories.find? e.Location = some e.Payload.Category) ∧
    (∀ l : SLocation, (∀ e ∈ allEvents s.m_vecControllers, e.Location ≠ l) →
      (PostStep s).m_mapVotedCategories.find? l = s.m_mapVotedCategories.find? l) ∧
    (∀ s' : CPointCloudLoopFunctions,
      s'.m_mapVotedCategories = s.m_mapVotedCategories →
      s'.m_vecControllers.map (fun c => c.VotingDecisions) =
        s.m_vecControllers.map (fun c => c.VotingDecisions) →
      (PostStep s').m_mapVotedCategories = (PostStep s).m_mapVotedCategories) := by
  refine ⟨PostStep_voted s, ?_, ?_, ?_⟩
  · intro pre post e hsplit hpost
    rw [PostStep_voted, hsplit]
    exact find?_foldl_recordVote_last pre post e _ hpost
  · intro l hl
    rw [PostStep_voted]
    exact find?_foldl_recordVote_of_not_mem _ _ l hl
  · intro s' hv hc
    have hall : allEvents s'.m_vecControllers = allEvents s.m_vecControllers := by
      have h1 : ∀ cs : List CCollectivePerception,
          allEvents cs = (cs.map (fun c => c.VotingDecisions)).flatMap id := by
        intro cs
        simp [allEvents, List.flatMap_map]
      rw [h1, h1, hc]
    rw [PostStep_voted, PostStep_voted, hv, hall]

/-- C2, scenario check: agent 0 votes `A` and agent 1 votes `B` for the same object in one
tick; the map then holds `B` for it, and an object nobody voted for stays absent. -/
theorem postStep_last_writer_wins_witness :
    (PostStep (PreStep { setup ⟨2, 100, 32⟩ exampleRobots examplePointClouds with
        m_vecControllers := conflictTick.controllers } 1)).m_mapVotedCategories.find? locA
      = some "B" ∧
    (PostStep (PreStep { setup ⟨2, 100, 32⟩ exampleRobots examplePointClouds with
        m_vecControllers := conflictTick.controllers } 1)).m_mapVotedCategories.find? locB
      = none :=
  ⟨(postStep_last_writer_wins _).2.1
      [{ Location := locA, Payload := { Category := "A", Radius := 3 } }] []
      { Location := locA, Payload := { Category := "B", Radius := 3 } } rfl
      (fun _ h => absurd h (List.not_mem_nil _)),
   ((postStep_last_writer_wins _).2.2.1 locB (by decide)).trans rfl⟩

/-- C3: over every sequence of ticks (with arbitrary agent states at each tick), one more
tick never removes a location from the voted-category map, so its number of entries does
not decrease; the map keeps its keys pairwise distinct, so that number is the number of
distinct voted locations. -/
theorem voted_locations_never_decrease (s : CPointCloudLoopFunctions)
    (pre : List TickInput) (t : TickInput) :
    (∀ l : SLocation, l ∈ (run s pre).m_mapVotedCategories.keys →
      l ∈ (run s (pre ++ [t])).m_mapVotedCategories.keys) ∧
    (run s pre).m_mapVotedCategories.size ≤ (run s (pre ++ [t])).m_mapVotedCategories.size ∧
    (PostStep (run s pre)).m_mapVotedCategories.size ≥ (run s pre).m_mapVotedCategories.size ∧
    (s.m_mapVotedCategories.WF →
      (run s (pre ++ [t])).m_mapVotedCategories.WF ∧
      (run s (pre ++ [t])).m_mapVotedCategories.keys.dedup.length =
        (run s (pre ++ [t])).m_mapVotedCategories.size) := by
  refine ⟨?_, ?_, ?_, ?_⟩
  · intro l hl
    rw [run_append_singleton, tick_voted]
    exact keys_foldl_recordVote _ _ l hl
  · rw [run_append_singleton, tick_voted]
    exact size_foldl_recordVote _ _
  · rw [PostStep_voted]
    exact size_foldl_recordVote _ _
  · intro hs
    have hwf := run_voted_WF s (pre ++ [t]) hs
    refine ⟨hwf, ?_⟩
    unfold CategoryMap.WF at hwf
    rw [List.Nodup.dedup hwf]
    simp [CategoryMap.keys, CategoryMap.size]

/-- C3, scenario check: in the round-trip scenario the voted map has 0 entries after setup,
2 after tick 1, and still 2 after a further tick in which every robot is idle. -/
theorem voted_locations_never_decrease_witness :
    (run (setup ⟨2, 100, 32⟩ exampleRobots examplePointClouds) []).m_mapVotedCategories.size
      = 0 ∧
    (run (setup ⟨2, 100, 32⟩ exampleRobots examplePointClouds)
      [exampleTick]).m_mapVotedCategories.size = 2 ∧
    (run (setup ⟨2, 100, 32⟩ exampleRobots examplePointClouds)
      [exampleTick, ⟨2, exampleRobots⟩]).m_mapVotedCategories.size = 2 ∧
    (run (setup ⟨2, 100, 32⟩ exampleRobots examplePointClouds) []).m_mapVotedCategories.size ≤
      (run (setup ⟨2, 100, 32⟩ exampleRobots examplePointClouds)
        ([] ++ [exampleTick])).m_mapVotedCategories.size :=
  ⟨by decide, by decide, by decide,
   (voted_locations_never_decrease _ [] exampleTick).2.1⟩

/-! ## Setup -/

theorem initLoop_storage (h : Header) (cs : List CCollectivePerception) (a : InitAcc) :
    (cs.foldl (initRobotStep h) a).storageCapacity % 2 ^ h.capacityBits =
      (a.storageCapacity + (cs.map (fun c => c.StorageCapacity)).sum) % 2 ^ h.capacityBits := by
  induction cs generalizing a with
  | nil => simp
  | cons c cs ih =>
    rw [List.foldl_cons, ih]
    simp only [initRobotStep, CCollectivePerception.GetStorageCapacity,
      CCollectivePerception.SetNumStoredTuples, List.map_cons, List.sum_cons]
    rw [Nat.add_mod, Nat.mod_mod, ← Nat.add_mod, Nat.add_assoc]

theorem initLoop_storage_lt (h : Header) (cs : List CCollectivePerception) (a : InitAcc)
    (ha : a.storageCapacity < 2 ^ h.capacityBits) :
    (cs.foldl (initRobotStep h) a).storageCapacity < 2 ^ h.capacityBits := by
  induction cs generalizing a with
  | nil => exact ha
  | cons c cs ih =>
    rw [List.foldl_cons]
    exact ih _ (Nat.mod_lt _ (Nat.pos_of_ne_zero (by positivity)))

theorem Init_ok (h : Header) (a b c d : Nat) (cRobots : List CCollectivePerception)
    (cPointClouds : List (SLocation × String)) :
    ∃ s₀, Init h ⟨some a, some b, some c, some d⟩ cRobots cPointClouds = .ok s₀ ∧
      s₀.m_unStorageCapacity =
        (cRobots.map (fun c => c.StorageCapacity)).sum % 2 ^ h.capacityBits ∧
      s₀.m_mapActualCategories = registerPointClouds [] cPointClouds ∧
      s₀.m_mapVotedCategories = [] := by
  refine ⟨_, rfl, ?_, rfl, rfl⟩
  have h1 := initLoop_storage h cRobots
    { storageCapacity := 0, routingCapacity := 0, vecControllers := [] }
  have h2 := initLoop_storage_lt h cRobots
    { storageCapacity := 0, routingCapacity := 0, vecControllers := [] }
    (Nat.pos_of_ne_zero (by positivity))
  rw [Nat.mod_eq_of_lt h2] at h1
  simpa [CPointCloudLoopFunctions.new] using h1

theorem tick_capacity (s : CPointCloudLoopFunctions) (t : TickInput) :
    (tick s t).m_unStorageCapacity = s.m_unStorageCapacity := rfl

theorem run_capacity (s : CPointCloudLoopFunctions) (ts : List TickInput) :
    (run s ts).m_unStorageCapacity = s.m_unStorageCapacity := by
  induction ts generalizing s with
  | nil => rfl
  | cons t ts ih =>
    have h := ih (tick s t)
    simpa [run, tick_capacity] using h

theorem PostStep_last_line (s : CPointCloudLoopFunctions) :
    (PostStep s).m_ofOutputFile.getLast? =
      some (DetailLine.load (fLoad (totalTuples s.m_vecControllers) s.m_unStorageCapacity)
        (totalBytesSent s.m_vecControllers)) := by
  rw [PostStep_output, List.getLast?_concat]

/-- C6 (as amended): for every agent, `PostStep` sets its message count, bytes-sent counter
and stored-tuple count to zero and empties its timing records; its voting-decision list,
stored tuples, identifier, node id and capacities are the same after `PostStep` as before,
and no agent is added or removed. -/
theorem postStep_changes_counters_and_timing (s : CPointCloudLoopFunctions) (i : Nat)
    (c : CCollectivePerception) (hc : s.m_vecControllers[i]? = some c) :
    (PostStep s).m_vecControllers.length = s.m_vecControllers.length ∧
    ∃ c', (PostStep s).m_vecControllers[i]? = some c' ∧
      c'.MessageCount = 0 ∧ c'.BytesSent = 0 ∧ c'.NumStoredTuples = 0 ∧ c'.TimingInfo = [] ∧
      c'.VotingDecisions = c.VotingDecisions ∧ c'.Tuples = c.Tuples ∧ c'.Id = c.Id ∧
      c'.NodeID = c.NodeID ∧ c'.RoutingCapacity = c.RoutingCapacity ∧
      c'.StorageCapacity = c.StorageCapacity := by
  rw [PostStep_controllers]
  refine ⟨by simp, drained c, by simp [hc], rfl, rfl, rfl, rfl, rfl, rfl, rfl, rfl, rfl, rfl⟩

/-- C6, scenario check: agent 1 of the round-trip scenario at tick 1. -/
theorem postStep_changes_counters_and_timing_witness :
    exampleTick.controllers[1]? = some (votingRobot "fb1" 1 locB "B") ∧
    ∃ c', (tick (setup ⟨2, 100, 32⟩ exampleRobots examplePointClouds)
        exampleTick).m_vecControllers[1]? = some c' ∧
      c'.MessageCount = 0 ∧ c'.BytesSent = 0 ∧ c'.NumStoredTuples = 0 ∧ c'.TimingInfo = [] ∧
      c'.VotingDecisions = (votingRobot "fb1" 1 locB "B").VotingDecisions ∧
      c'.Tuples = (votingRobot "fb1" 1 locB "B").Tuples ∧ c'.Id = "fb1" ∧
      c'.NodeID = 1 ∧ c'.RoutingCapacity = 10 ∧ c'.StorageCapacity = 10 :=
  ⟨rfl, (postStep_changes_counters_and_timing
    (PreStep { setup ⟨2, 100, 32⟩ exampleRobots examplePointClouds with
      m_vecControllers := exampleTick.controllers } exampleTick.clock) 1
    (votingRobot "fb1" 1 locB "B") rfl).2⟩

/-- C6 (as stated) fails: the timing records of agent 0 of the round-trip scenario are not
the same after `PostStep` as before it: one record before, none after. -/
theorem postStep_clears_timing_records :
    (exampleTick.controllers.map (fun c => c.TimingInfo.length)) = [1, 1, 0] ∧
    ((tick (setup ⟨2, 100, 32⟩ exampleRobots examplePointClouds)
        exampleTick).m_vecControllers.map (fun c => c.TimingInfo.length)) = [0, 0, 0] ∧
    (tick (setup ⟨2, 100, 32⟩ exampleRobots examplePointClouds)
        exampleTick).m_vecControllers.map (fun c => c.TimingInfo) ≠
      exampleTick.controllers.map (fun c => c.TimingInfo) :=
  ⟨by decide, by decide, by decide⟩

/-! ## The ground-truth map -/

theorem readActual_of_registered (es : List SEventData) (m : CategoryMap)
    (hreg : ∀ e ∈ es, e.Location ∈ m.keys) : readActual m es = m := by
  induction es with
  | nil => rfl
  | cons e es ih =>
    have he : (m.subscript e.Location).2 = m :=
      CategoryMap.subscript_snd_of_mem m _ (hreg e (List.mem_cons_self _ _))
    have h := ih (fun e' he' => hreg e' (List.mem_cons_of_mem _ he'))
    simp only [readActual, List.foldl_cons, he] at h ⊢
    exact h

/-- C7, the code at the failing input: one object is registered at `locA`; in tick 1 the
only robot reports a voting decision for `locC`, where no object stands. Before `PostStep`
the ground-truth map has the single entry `locA ↦ "A"`; after it, the map holds a second
entry `locC ↦ ""`, inserted by the read `m_mapActualCategories[Location]`. -/
theorem postStep_inserts_into_ground_truth :
    (setup ⟨1, 100, 32⟩ [idleRobot "fb0" 0] [(locA, "A")]).m_mapActualCategories
      = [(locA, "A")] ∧
    (tick (setup ⟨1, 100, 32⟩ [idleRobot "fb0" 0] [(locA, "A")])
      strayTick).m_mapActualCategories = [(locA, "A"), (locC, "")] ∧
    (tick (setup ⟨1, 100, 32⟩ [idleRobot "fb0" 0] [(locA, "A")])
      strayTick).m_mapActualCategories ≠
      (setup ⟨1, 100, 32⟩ [idleRobot "fb0" 0] [(locA, "A")]).m_mapActualCategories :=
  ⟨by decide, by decide, by decide⟩

/-! ## The detail log -/

theorem getElem?_map_enumFrom {β : Type} (g : Nat × SEventData → β) (es : List SEventData)
    (n j : Nat) (e : SEventData) (he : es[j]? = some e) :
    ((es.enumFrom n).map g)[j]? = some (g (n + j, e)) := by
  induction es generalizing n j with
  | nil => simp at he
  | cons e₀ es ih =>
    cases j with
    | zero =>
      simp only [List.getElem?_cons_zero, Option.some.injEq] at he
      simp [List.enumFrom_cons, he]
    | succ j =>
      simp only [List.getElem?_cons_succ] at he
      have h := ih (n + 1) j he
      simp only [List.enumFrom_cons, List.map_cons, List.getElem?_cons_succ, h]
      congr 3
      omega

theorem length_flatMap_agentBlock (m : CategoryMap) (cs : List CCollectivePerception) :
    (cs.flatMap (agentBlock m)).length =
      cs.length + (cs.map (fun c => c.VotingDecisions.length)).sum := by
  induction cs with
  | nil => rfl
  | cons c cs ih =>
    simp only [List.flatMap_cons, List.length_append, ih, List.length_cons, List.map_cons,
      List.sum_cons, agentBlock, List.length_map, List.enumFrom_length]
    omega

/-- C8: the detail lines one `PostStep` writes are the tick line, then for every agent in
enumeration order its block, then the trailing load line. The block of an agent reporting
`k` voting decisions is the line `<agentId> k` followed by exactly `k` event lines, the
`j`-th carrying the voted category, the ground-truth category looked up by the event's
location, the radius, `LastUpdate - Start` of timing record `j`, and `x y z`. A tick over
`n` agents with `k_1 .. k_n` events writes `2 + n + (k_1 + ... + k_n)` lines. -/
theorem postStep_detail_log_shape (s : CPointCloudLoopFunctions) :
    (PostStep s).m_ofOutputFile = s.m_ofOutputFile ++ writtenDetail s ∧
    writtenDetail s =
      (DetailLine.tick s.m_unClock s.m_unNumRobots ::
        s.m_vecControllers.flatMap (agentBlock s.m_mapActualCategories)) ++
      [DetailLine.load (fLoad (totalTuples s.m_vecControllers) s.m_unStorageCapacity)
        (totalBytesSent s.m_vecControllers)] ∧
    (∀ c : CCollectivePerception,
      (agentBlock s.m_mapActualCategories c).length = 1 + c.VotingDecisions.length ∧
      (agentBlock s.m_mapActualCategories c)[0]? =
        some (DetailLine.agent c.Id c.VotingDecisions.length) ∧
      ∀ (j : Nat) (e : SEventData), c.VotingDecisions[j]? = some e →
        (agentBlock s.m_mapActualCategories c)[j + 1]? =
          some (DetailLine.event e.Payload.Category
            (s.m_mapActualCategories.lookupD e.Location) e.Payload.Radius
            ((c.TimingInfo[j]?).map (fun t => t.LastUpdate - t.Start))
            e.Location.X e.Location.Y e.Location.Z)) ∧
    (writtenDetail s).length = 2 + s.m_vecControllers.length +
      (s.m_vecControllers.map (fun c => c.VotingDecisions.length)).sum := by
  refine ⟨?_, writtenDetail_eq s, ?_, ?_⟩
  · rw [writtenDetail_eq, PostStep_output, List.append_assoc]
  · intro c
    refine ⟨?_, by simp [agentBlock], ?_⟩
    · simp [agentBlock, List.enumFrom_length]
      omega
    · intro j e he
      have h := getElem?_map_enumFrom
        (fun p => eventLine s.m_mapActualCategories c.TimingInfo p.1 p.2)
        c.VotingDecisions 0 j e he
      simp only [agentBlock, List.getElem?_cons_succ, h, Nat.zero_add]
      rfl
  · rw [writtenDetail_eq]
    simp only [List.length_append, List.length_cons, List.length_nil,
      length_flatMap_agentBlock]
    omega

/-- C8, scenario check: tick 1 of the round-trip scenario (three agents with 1, 1 and 0
events) writes 2 + 3 + 2 = 7 detail lines; the first agent's line `fb0 1` is followed by
its event line, then comes the next agent's line `fb1 1`. -/
theorem postStep_detail_log_shape_witness :
    (writtenDetail (PreStep { setup ⟨2, 100, 32⟩ exampleRobots examplePointClouds with
      m_vecControllers := exampleTick.controllers } 1)).length = 7 ∧
    (writtenDetail (PreStep { setup ⟨2, 100, 32⟩ exampleRobots examplePointClouds with
      m_vecControllers := exampleTick.controllers } 1)).take 4 =
      [DetailLine.tick 1 3, DetailLine.agent "fb0" 1,
        DetailLine.event "A" "A" 3 (some 3) 1 2 0, DetailLine.agent "fb1" 1] :=
  ⟨(postStep_detail_log_shape _).2.2.2.trans rfl, by decide⟩

/-! ## The storage load -/

theorem fLoad_of_pos (t cap : Nat) (hcap : cap ≠ 0) :
    fLoad t cap = some ((t : ℚ) / (cap : ℚ)) := by
  simp [fLoad, hcap]

theorem load_mem_unit_interval (t cap : Nat) (hcap : cap ≠ 0) (hle : t ≤ cap) :
    (0 : ℚ) ≤ (t : ℚ) / (cap : ℚ) ∧ (t : ℚ) / (cap : ℚ) ≤ 1 := by
  have hpos : (0 : ℚ) < (cap : ℚ) := by exact_mod_cast Nat.pos_of_ne_zero hcap
  constructor
  · positivity
  · rw [div_le_one hpos]
    exact_mod_cast hle

/-- C9 (as amended): after setup with any robots whose capacity total (as the member
`m_unStorageCapacity` holds it) is not zero, and after any sequence of ticks, the load
`PostStep` writes is the sum of the agents' stored-tuple counts (modulo 2^32, as the
32-bit local holds it) divided by that capacity total; whenever the sum does not exceed the
total, the load lies in the closed interval from 0 to 1. -/
theorem storage_load_is_quotient (h : Header) (a b c d : Nat)
    (cRobots : List CCollectivePerception) (cPointClouds : List (SLocation × String))
    (ts : List TickInput) (t : TickInput)
    (hcap : (cRobots.map (fun c => c.StorageCapacity)).sum % 2 ^ h.capacityBits ≠ 0) :
    ∃ (s₀ : CPointCloudLoopFunctions) (q : ℚ),
      Init h ⟨some a, some b, some c, some d⟩ cRobots cPointClouds = .ok s₀ ∧
      (tick (run s₀ ts) t).m_ofOutputFile.getLast? =
        some (DetailLine.load (some q) (totalBytesSent t.controllers)) ∧
      q = (((t.controllers.map (fun c => c.NumStoredTuples)).sum % 4294967296 : Nat) : ℚ) /
        (((cRobots.map (fun c => c.StorageCapacity)).sum % 2 ^ h.capacityBits : Nat) : ℚ) ∧
      ((t.controllers.map (fun c => c.NumStoredTuples)).sum % 4294967296 ≤
          (cRobots.map (fun c => c.StorageCapacity)).sum % 2 ^ h.capacityBits →
        0 ≤ q ∧ q ≤ 1) := by
  obtain ⟨s₀, hinit, hs₀, _, _⟩ := Init_ok h a b c d cRobots cPointClouds
  have hrun : (run s₀ ts).m_unStorageCapacity =
      (cRobots.map (fun c => c.StorageCapacity)).sum % 2 ^ h.capacityBits := by
    rw [run_capacity, hs₀]
  refine ⟨s₀, _, hinit, ?_, rfl, ?_⟩
  · unfold tick
    rw [PostStep_last_line]
    simp only [PreStep, hrun, fLoad_of_pos _ _ hcap, totalTuples]
  · intro hle
    exact load_mem_unit_interval _ _ hcap hle

/-- C9, scenario check: the round-trip scenario (three robots of capacity 10 each, two
stored tuples at tick 1) has a load in the unit interval. -/
theorem storage_load_is_quotient_witness :
    ∃ (s₀ : CPointCloudLoopFunctions) (q : ℚ),
      Init ⟨2, 100, 32⟩ ⟨some 3, some 10, some 10, some 4⟩ exampleRobots examplePointClouds
        = .ok s₀ ∧
      (tick (run s₀ []) exampleTick).m_ofOutputFile.getLast? =
        some (DetailLine.load (some q) (totalBytesSent exampleTick.controllers)) ∧
      q = (((exampleTick.controllers.map (fun c => c.NumStoredTuples)).sum % 4294967296
          : Nat) : ℚ) /
        (((exampleRobots.map (fun c => c.StorageCapacity)).sum % 2 ^ 32 : Nat) : ℚ) ∧
      ((exampleTick.controllers.map (fun c => c.NumStoredTuples)).sum % 4294967296 ≤
          (exampleRobots.map (fun c => c.StorageCapacity)).sum % 2 ^ 32 →
        0 ≤ q ∧ q ≤ 1) :=
  storage_load_is_quotient ⟨2, 100, 32⟩ 3 10 10 4 exampleRobots examplePointClouds []
    exampleTick (by decide)

/-- C9 (as stated) fails: with one robot without storage the capacity total is zero and the
sum of stored tuples (zero) does not exceed it, yet the load `PostStep` writes is no number
of the unit interval: the division has a zero divisor. -/
theorem storage_load_undefined_at_zero_capacity :
    ∃ s₀ : CPointCloudLoopFunctions,
      Init ⟨2, 100, 32⟩ exampleParams [zeroCapacityRobot] examplePointClouds = .ok s₀ ∧
      totalTuples [zeroCapacityRobot] ≤ s₀.m_unStorageCapacity ∧
      (tick s₀ ⟨1, [zeroCapacityRobot]⟩).m_ofOutputFile.getLast? =
        some (DetailLine.load none 0) ∧
      ¬ ∃ q : ℚ, (0 ≤ q ∧ q ≤ 1) ∧
        (tick s₀ ⟨1, [zeroCapacityRobot]⟩).m_ofOutputFile.getLast? =
          some (DetailLine.load (some q) 0) := by
  have hlast : (tick (setup ⟨2, 100, 32⟩ [zeroCapacityRobot] examplePointClouds)
      ⟨1, [zeroCapacityRobot]⟩).m_ofOutputFile.getLast? = some (DetailLine.load none 0) := by
    decide
  refine ⟨setup ⟨2, 100, 32⟩ [zeroCapacityRobot] examplePointClouds, rfl, by decide, hlast, ?_⟩
  rintro ⟨q, _, hq⟩
  rw [hlast] at hq
  cases hq

/-! ## Reads of the timing records -/

theorem eventLines_inBounds (m : CategoryMap) (t : List STimingInfo) (es : List SEventData)
    (n : Nat) :
    (∀ line ∈ (es.enumFrom n).map (fun p => eventLine m t p.1 p.2),
        line.outOfBounds = false) ↔ (es = [] ∨ n + es.length ≤ t.length) := by
  induction es generalizing n with
  | nil => simp
  | cons e es ih =>
    have hline : (eventLine m t n e).outOfBounds = false ↔ n < t.length := by
      unfold eventLine
      cases hn : t[n]? with
      | none =>
        have : t.length ≤ n := List.getElem?_eq_none_iff.1 hn
        simp only [Option.map_none', DetailLine.outOfBounds]
        constructor
        · intro hf
          cases hf
        · intro hlt
          omega
      | some v =>
        have : n < t.length := (List.getElem?_eq_some_iff.1 hn).1
        simp [DetailLine.outOfBounds, this]
    simp only [List.enumFrom_cons, List.map_cons, List.forall_mem_cons, hline, ih (n + 1),
      List.length_cons]
    constructor
    · rintro ⟨h1, h2⟩
      right
      rcases h2 with h2 | h2
      · subst h2
        simp only [List.length_nil]
        omega
      · omega
    · intro h
      rcases h with h | h
      · cases h
      · exact ⟨by omega, Or.inr (by omega)⟩

theorem agentBlock_inBounds (m : CategoryMap) (c : CCollectivePerception) :
    (∀ line ∈ agentBlock m c, line.outOfBounds = false) ↔
      c.VotingDecisions.length ≤ c.TimingInfo.length := by
  have h0 := eventLines_inBounds m c.TimingInfo c.VotingDecisions 0
  unfold agentBlock
  rw [List.forall_mem_cons]
  constructor
  · intro h
    rcases h0.1 h.2 with h1 | h1
    · simp [h1]
    · omega
  · intro h
    exact ⟨rfl, h0.2 (Or.inr (by omega))⟩

/-- C10: with `vecTimingInfo[i]` as `Option`-valued indexing, `PostStep` writes no event
line with an out-of-bounds timing read if and only if every agent's timing-record list is
at least as long as its voting-decision list. `PostStep` empties the timing records and
keeps the events, so after it this holds exactly for the agents whose event list is
empty. -/
theorem timing_reads_in_bounds_iff (s : CPointCloudLoopFunctions) :
    ((∀ line ∈ writtenDetail s, line.outOfBounds = false) ↔
      ∀ c ∈ s.m_vecControllers, c.VotingDecisions.length ≤ c.TimingInfo.length) ∧
    (∀ c' ∈ (PostStep s).m_vecControllers,
      (c'.VotingDecisions.length ≤ c'.TimingInfo.length ↔ c'.VotingDecisions = [])) ∧
    ((∀ line ∈ writtenDetail (PostStep s), line.outOfBounds = false) ↔
      ∀ c ∈ s.m_vecControllers, c.VotingDecisions = []) := by
  have hfirst : ∀ s' : CPointCloudLoopFunctions,
      (∀ line ∈ writtenDetail s', line.outOfBounds = false) ↔
      ∀ c ∈ s'.m_vecControllers, c.VotingDecisions.length ≤ c.TimingInfo.length := by
    intro s'
    rw [writtenDetail_eq]
    simp only [List.mem_append, List.mem_cons, List.mem_flatMap, List.mem_singleton,
      List.not_mem_nil, or_false]
    constructor
    · intro hall c hc
      refine (agentBlock_inBounds s'.m_mapActualCategories c).1 ?_
      intro line hline
      exact hall line (Or.inl (Or.inr ⟨c, hc, hline⟩))
    · intro hall line hline
      rcases hline with (hline | ⟨c, hc, hline⟩) | hline
      · subst hline
        rfl
      · exact (agentBlock_inBounds s'.m_mapActualCategories c).2 (hall c hc) line hline
      · subst hline
        rfl
  have hdrained : ∀ c : CCollectivePerception,
      ((drained c).VotingDecisions.length ≤ (drained c).TimingInfo.length ↔
        c.VotingDecisions = []) := by
    intro c
    simp [drained, List.length_eq_zero]
  refine ⟨hfirst s, ?_, ?_⟩
  · intro c' hc'
    rw [PostStep_controllers] at hc'
    obtain ⟨c, _, rfl⟩ := List.mem_map.1 hc'
    exact hdrained c
  · rw [hfirst (PostStep s), PostStep_controllers]
    constructor
    · intro hall c hc
      exact (hdrained c).1 (hall (drained c) (List.mem_map_of_mem _ hc))
    · intro hall c' hc'
      obtain ⟨c, hc, rfl⟩ := List.mem_map.1 hc'
      exact (hdrained c).2 (hall c hc)

/-- C10, scenario check: tick 1 of the round-trip scenario reads every timing record in
bounds; a second `PostStep` without agent activity reads past the (emptied) timing records
of agent 0, whose event list is not empty. -/
theorem timing_reads_in_bounds_iff_witness :
    (∀ line ∈ writtenDetail (PreStep { setup ⟨2, 100, 32⟩ exampleRobots examplePointClouds with
      m_vecControllers := exampleTick.controllers } 1), line.outOfBounds = false) ∧
    ¬ (∀ line ∈ writtenDetail (tick (setup ⟨2, 100, 32⟩ exampleRobots examplePointClouds)
      exampleTick), line.outOfBounds = false) :=
  ⟨(timing_reads_in_bounds_iff _).1.2 (by decide),
   fun hall => absurd ((timing_reads_in_bounds_iff _).2.2.1 hall) (by decide)⟩

end PointCloud
